import Mathlib

/-
Verification development for the deephaven plotly-express figure plugin.

The definitions below are a shallow embedding of the two source files
(`deephaven_figure/DeephavenFigure.py` and `__init__.py`):
 - Python objects that only matter by identity (tables, transport handles,
   callables, trace generators) are modelled as natural numbers.
 - Python dictionaries are modelled as insertion-ordered association lists
   with first-match lookup (Python dicts cannot hold duplicate keys).
 - JSON documents are modelled by the inductive `JValue`.
 - Exceptions are modelled with `Except`; mutation is modelled by explicit
   state passing (each method returns its updated object).
 - The live, mutating data source is modelled by threading an explicit
   world-time parameter `w : Nat` into the notification handlers; the
   chart-construction collaborator reads the live world, so it receives `w`.
-/

set_option autoImplicit false

/-- A Python value, as far as the figure code inspects one: the code only
ever tests membership and truthiness (`bool(call_args[arg])`). -/
inductive PyVal where
  | vnone
  | vbool (b : Bool)
  | vint (n : Int)
  | vstr (s : String)
  | vlist (xs : List PyVal)

/-- Python truthiness, `bool(v)`. -/
def PyVal.truthy : PyVal → Bool
  | PyVal.vnone => false
  | PyVal.vbool b => b
  | PyVal.vint n => decide (n ≠ 0)
  | PyVal.vstr s => !s.isEmpty
  | PyVal.vlist xs => !xs.isEmpty

/-- First-match lookup in a Python dict modelled as an association list. -/
def findVal (k : String) : List (String × PyVal) → Option PyVal
  | [] => none
  | (k', v) :: rest => if k = k' then some v else findVal k rest

/-- Embeds `has_color_args(call_args)` from DeephavenFigure.py: true when either the
line or the marker discrete-color-sequence key is present with a truthy value. -/
def has_color_args (call_args : List (String × PyVal)) : Bool :=
  ["color_discrete_sequence_line", "color_discrete_sequence_marker"].any
    (fun arg =>
      match findVal arg call_args with
      | some v => v.truthy
      | none => false)

/-- Embeds `has_arg(call_args, check)` from DeephavenFigure.py. `call_args` is
`None` or a dict; `check` is a string key or a predicate on the dict.
An absent or empty (falsy) dict yields `False`; a string key that is absent
yields `False` (a string is not `Callable`, so the elif does not fire). -/
def has_arg (call_args : Option (List (String × PyVal)))
    (check : String ⊕ (List (String × PyVal) → Bool)) : Bool :=
  match call_args with
  | none => false
  | some d =>
    if !d.isEmpty then
      match check with
      | Sum.inl s =>
        match findVal s d with
        | some v => v.truthy
        | none => false
      | Sum.inr f => f d
    else false

/-- Spec-side predicate, following the claim wording only: the args contain a
non-empty template option. Used to compare the code's derivation against the
spec's description. -/
def spec_has_nonempty_template (call_args : Option (List (String × PyVal))) : Bool :=
  match call_args with
  | none => false
  | some d =>
    match findVal "template" d with
    | some v => v.truthy
    | none => false

/-- Spec-side predicate, following the claim wording only: either the line or
the marker variant of the discrete-color-sequence option is present with a
non-empty value. -/
def spec_has_nonempty_color_seq (call_args : Option (List (String × PyVal))) : Bool :=
  match call_args with
  | none => false
  | some d =>
    ["color_discrete_sequence_line", "color_discrete_sequence_marker"].any
      (fun arg =>
        match findVal arg d with
        | some v => v.truthy
        | none => false)

/-- A JSON document (the wire payloads are JSON-shaped). -/
inductive JValue where
  | jnull
  | jbool (b : Bool)
  | jnum (n : Int)
  | jstr (s : String)
  | jarr (xs : List JValue)
  | jobj (fields : List (String × JValue))

/-- Embeds `Reference` from DeephavenFigure.py: an index plus the referenced object
(objects are modelled by their identity, a natural number). -/
structure Reference where
  index : Nat
  obj : Nat
deriving DecidableEq, Repr

/-- Embeds `Exporter` from DeephavenFigure.py: `self.references` is a Python dict
from object to `Reference`, modelled as an insertion-ordered association
list. -/
structure Exporter where
  references : List (Nat × Reference)
deriving DecidableEq, Repr

/-- First-match lookup in the exporter's dict (`obj in self.references`). -/
def findRef (o : Nat) : List (Nat × Reference) → Option Reference
  | [] => none
  | (k, r) :: rest => if o = k then some r else findRef o rest

/-- The constructor `Exporter()` starts with an empty dict. -/
def Exporter.empty : Exporter := ⟨[]⟩

/-- Embeds `Exporter.reference(obj)`: return the existing `Reference` when the object
was seen before, else record `Reference(len(self.references), obj)`. Returns
the reference together with the updated exporter (mutation is explicit). -/
def Exporter.reference (e : Exporter) (o : Nat) : Reference × Exporter :=
  match findRef o e.references with
  | some r => (r, e)
  | none => (⟨e.references.length, o⟩, ⟨e.references ++ [(o, ⟨e.references.length, o⟩)]⟩)

/-- Embeds `Exporter.reference_list()`: `list(self.references.keys())`, the
referenced objects in dict insertion order. -/
def Exporter.reference_list (e : Exporter) : List Nat :=
  e.references.map Prod.fst

/-- Run a sequence of `reference` calls against an exporter, keeping only the
final exporter state. -/
def runRefs : Exporter → List Nat → Exporter
  | e, [] => e
  | e, o :: os => runRefs (e.reference o).2 os

/-- Modelled from the spec: the `DataMapping` class lives in the repository's
`data_mapping` package, which is not among the provided source files. Per the
spec's data model it holds a column-name to visual-property association, a
reference to the source table, and a trace-addressing offset. -/
structure DataMapping where
  column_to_property : List (String × String)
  table : Nat
  offset : Int
deriving DecidableEq, Repr

/-- Modelled from the spec: `copy(offset)` produces an independent mapping
with the same column/property associations and table, with the
trace-addressing offset shifted by `offset`. -/
def DataMapping.copy (m : DataMapping) (offset : Int) : DataMapping :=
  { m with offset := m.offset + offset }

/-- Modelled from the spec: `get_links(exporter)` resolves the source table
through `exporter.reference(...)` and yields the wire-level link records
(`table` reference index, `data_columns` association, offset). Returns the
links together with the updated exporter. -/
def DataMapping.get_links (m : DataMapping) (e : Exporter) : List JValue × Exporter :=
  match e.reference m.table with
  | (r, e') =>
    ([JValue.jobj
        [("table", JValue.jnum (Int.ofNat r.index)),
         ("data_columns", JValue.jobj (m.column_to_property.map
            (fun cp => (cp.1, JValue.jstr cp.2)))),
         ("offset", JValue.jnum m.offset)]], e')

/-- The published fields of a `DeephavenFigure` (the fields that
`DeephavenFigure.on_update` copies out of a freshly constructed figure).
`fig` is the plotly figure, kept as the JSON document that
`self.fig.to_json()` would produce (`None` when absent); `call` and
`trace_generator` are opaque object identities. -/
structure FigData where
  fig : Option JValue
  call : Option Nat
  call_args : Option (List (String × PyVal))
  trace_generator : Option Nat
  has_template : Bool
  has_color : Bool
  _data_mappings : List DataMapping
  has_subplots : Bool

/-- The nested list comprehension in `get_json_links`:
`[links for mapping in self._data_mappings for links in mapping.get_links(exporter)]`,
with the exporter threaded through the sequential `get_links` calls. -/
def linksFold : List DataMapping → List JValue → Exporter → List JValue × Exporter
  | [], acc, e => (acc, e)
  | m :: ms, acc, e =>
    match m.get_links e with
    | (ls, e') => linksFold ms (acc ++ ls) e'

/-- Embeds `DeephavenFigure.get_json_links(exporter)`. -/
def FigData.get_json_links (f : FigData) (e : Exporter) : List JValue × Exporter :=
  linksFold f._data_mappings [] e

/-- Embeds `DeephavenFigure.copy_mappings(offset)`. -/
def FigData.copy_mappings (f : FigData) (offset : Int) : List DataMapping :=
  f._data_mappings.map (fun m => m.copy offset)

/-- Exceptions raised by the embedded code. Collaborator-raised exceptions
(`collab`) carry an opaque code and are distinct by construction from the
framework's `ValueError` and from Python `AttributeError`. -/
inductive Err where
  | valueError (msg : String)
  | attributeError (msg : String)
  | collab (code : Nat)
deriving DecidableEq, Repr

/-- Embeds `DeephavenFigure.to_json(exporter)` (and `to_dict`, which is
`json.loads` of it): the two-section wire document. `self.fig.to_json()`
raises `AttributeError` when `fig` is `None`. Returns the document together
with the updated exporter. -/
def FigData.to_json (f : FigData) (e : Exporter) : Except Err (JValue × Exporter) :=
  match f.fig with
  | none => Except.error (Err.attributeError "NoneType object has no attribute to_json")
  | some plotly =>
    match f.get_json_links e with
    | (mappings, e') =>
      Except.ok
        (JValue.jobj
          [("plotly", plotly),
           ("deephaven", JValue.jobj
             [("mappings", JValue.jarr mappings),
              ("is_user_set_template", JValue.jbool f.has_template),
              ("is_user_set_color", JValue.jbool f.has_color)])], e')

/-- A Deephaven table handle. A `PartitionedTable` carries its live
constituent count as a function of world-time (the constituents change as
the data source mutates); a plain table does not. -/
inductive Table where
  | plain (id : Nat)
  | partitioned (id : Nat) (constituent_count : Nat → Nat)

/-- Embeds `DeephavenFigureListener.partition_count`: the number of constituent
tables when the bound table is partitioned, `-1` otherwise; read from the
live table at world-time `w`. -/
def Table.partition_count (t : Table) (w : Nat) : Int :=
  match t with
  | Table.partitioned _ cs => Int.ofNat (cs w)
  | Table.plain _ => -1

/-- The listener's `orig_args` record: a dict that contains (at least) the
nested `args.table` slot the listener overwrites, plus opaque remaining
content. -/
structure ArgsRec where
  args_table : Table
  rest : Nat

/-- Modelled from the spec: `args_copy` lives in the repository's `shared`
package, which is not among the provided source files. Per the spec it is a
deep copy of the argument record before each use; over pure values the copy
is structurally identical to the original. -/
def args_copy (a : ArgsRec) : ArgsRec :=
  { args_table := a.args_table, rest := a.rest }

/-- Embeds `DeephavenFigureListener` state. `orig_func` is the chart-construction
collaborator: it re-reads the live data source, so it takes the world-time
besides the copied args, and returns the new figure's published fields
(plus a discarded second component) or raises an opaque exception code. -/
structure DHListener where
  table : Table
  partitions : Int
  deephaven_figure : Option FigData
  orig_func : ArgsRec → Nat → Except Nat (FigData × Unit)
  orig_args : ArgsRec
  connection : Option Nat
  exporter : Exporter
  exec_ctx : Nat

/-- Embeds `DeephavenFigureListener.__init__`: computes the initial partition
count, stores `None` for `deephaven_figure` and for the connection,
overwrites `orig_args["args"]["table"]` with the bound table, and creates
the one `Exporter()` held by the listener. -/
def DHListener.init (table : Table) (orig_func : ArgsRec → Nat → Except Nat (FigData × Unit))
    (orig_args : ArgsRec) (exec_ctx : Nat) (w : Nat) : DHListener :=
  { table := table
    partitions := table.partition_count w
    deephaven_figure := none
    orig_func := orig_func
    orig_args := { orig_args with args_table := table }
    connection := none
    exporter := Exporter.empty
    exec_ctx := exec_ctx }

/-- Lock events emitted by the embedded methods: the only lock in the source
is `DeephavenFigure.fig_lock`. -/
inductive LockEvt where
  | acquire_fig_lock
  | release_fig_lock
deriving DecidableEq, Repr

/-- Embeds `DeephavenFigureListener.on_update(update, is_replay)`, run inside the
`with self.exec_ctx` block (the scoped activation has no observable effect
in this model). It recomputes `self.partitions`, copies the args, invokes
the collaborator, serializes the new figure with the listener's stored
exporter (`new_fig.to_dict(exporter=self.exporter)`), and when a connection
is attached serializes again into the `NEW_FIGURE` message and pushes
`(bytes, self.exporter.reference_list())`. Returns the result (the new
figure, or the propagated exception), the updated listener state, and the
list of pushes performed. The `self.partitions` assignment happens before
the collaborator call in the source; it is folded into each result state
here, which is equivalent because nothing later reads it. -/
def DHListener.on_update (l : DHListener) (w : Nat) (update : Nat) (is_replay : Bool) :
    Except Err FigData × DHListener × List (JValue × List Nat) :=
  match l.orig_func (args_copy l.orig_args) w with
  | Except.error c =>
    (Except.error (Err.collab c), { l with partitions := l.table.partition_count w }, [])
  | Except.ok (new_fig, _) =>
    match FigData.to_json new_fig l.exporter with
    | Except.error e =>
      (Except.error e, { l with partitions := l.table.partition_count w }, [])
    | Except.ok (_, ex1) =>
      match l.connection with
      | none =>
        (Except.ok new_fig,
         { l with partitions := l.table.partition_count w, exporter := ex1 }, [])
      | some _ =>
        match FigData.to_json new_fig ex1 with
        | Except.error e =>
          (Except.error e,
           { l with partitions := l.table.partition_count w, exporter := ex1 }, [])
        | Except.ok (figDoc, ex2) =>
          (Except.ok new_fig,
           { l with partitions := l.table.partition_count w, exporter := ex2 },
           [(JValue.jobj [("type", JValue.jstr "NEW_FIGURE"), ("figure", figDoc)],
             Exporter.reference_list ex2)])

/-- Embeds `DeephavenFigureListener.execute(payload, references)`: returns the pair
unchanged. The listener state is returned to make explicit that the call
mutates nothing, and the (empty) lock-event list that no lock is taken. -/
def DHListener.execute (l : DHListener) (payload : JValue) (references : List Nat) :
    (JValue × List Nat) × DHListener × List LockEvt :=
  ((payload, references), l, [])

/-- Embeds `DeephavenFigure`. The published fields live in `fd`; `listener` is
`None` until attached. `connection_attr` models the `connection` attribute
that `DeephavenFigureConnection.__init__` sets on the figure object
dynamically (the class itself never defines or reads it). -/
structure DHFigure where
  fd : FigData
  listener : Option DHListener
  connection_attr : Option Nat

/-- Embeds `DeephavenFigure.__init__`. Python defaults are
`fig=None, call=None, call_args=None, data_mappings=None,
has_template=False, has_color=False, trace_generator=None,
has_subplots=False`; omitting an argument is the same call as passing its
default. `has_template`/`has_color` fall back to inspecting `call_args`
when the passed flag is falsy, and `_data_mappings` falls back to `[]`
when `data_mappings` is falsy. -/
def DHFigure.init (fig : Option JValue) (call : Option Nat)
    (call_args : Option (List (String × PyVal)))
    (data_mappings : Option (List DataMapping))
    (has_template : Bool) (has_color : Bool)
    (trace_generator : Option Nat) (has_subplots : Bool) : DHFigure :=
  { fd :=
    { fig := fig
      call := call
      call_args := call_args
      trace_generator := trace_generator
      has_template := if has_template then has_template else has_arg call_args (Sum.inl "template")
      has_color := if has_color then has_color else has_arg call_args (Sum.inr has_color_args)
      _data_mappings :=
        match data_mappings with
        | some l => if l.isEmpty then [] else l
        | none => []
      has_subplots := has_subplots }
    listener := none
    connection_attr := none }

/-- Embeds `DeephavenFigure.initialize_listener` (the name is shortened here):
attaches a freshly constructed listener. -/
def DHFigure.attach_listener (f : DHFigure) (table : Table)
    (orig_func : ArgsRec → Nat → Except Nat (FigData × Unit))
    (orig_args : ArgsRec) (exec_ctx : Nat) (w : Nat) : DHFigure :=
  { f with listener := some (DHListener.init table orig_func orig_args exec_ctx w) }

/-- Embeds `DeephavenFigure.on_update(update, is_replay)`: raises
`ValueError("Listener not initialized")` when no listener is attached
(before taking any lock); otherwise, under `with self.fig_lock:`, runs the
listener and copies each published field out of the new figure. On an
exception from the listener the `with` block releases the lock and
propagates; no field is assigned. Returns the result, the updated figure,
the pushes performed, and the lock events. -/
def DHFigure.on_update (f : DHFigure) (w : Nat) (update : Nat) (is_replay : Bool) :
    Except Err Unit × DHFigure × List (JValue × List Nat) × List LockEvt :=
  match f.listener with
  | none => (Except.error (Err.valueError "Listener not initialized"), f, [], [])
  | some l =>
    match DHListener.on_update l w update is_replay with
    | (Except.error e, l', pushes) =>
      (Except.error e, { f with listener := some l' }, pushes,
       [LockEvt.acquire_fig_lock, LockEvt.release_fig_lock])
    | (Except.ok nf, l', pushes) =>
      (Except.ok (),
       { f with
           fd :=
             { fig := nf.fig
               call := nf.call
               call_args := nf.call_args
               trace_generator := nf.trace_generator
               has_template := nf.has_template
               has_color := nf.has_color
               _data_mappings := nf._data_mappings
               has_subplots := nf.has_subplots }
           listener := some l' },
       pushes, [LockEvt.acquire_fig_lock, LockEvt.release_fig_lock])

/-- Embeds `DeephavenFigureConnection` from `__init__.py`: holds the object passed
by `create_client_connection` — which `is_type` guarantees is a
`DeephavenFigure`, despite the parameter name `figure_listener` — and the
client connection handle. -/
structure DHConnection where
  figure_listener : DHFigure
  client_connection : Nat

/-- Embeds `DeephavenFigureConnection.__init__`: performs
`figure_listener.connection = client_connection`, i.e. sets the dynamic
`connection` attribute on the figure object itself (not on
`figure_listener.listener`). -/
def DHConnection.init (figure_listener : DHFigure) (client_connection : Nat) : DHConnection :=
  { figure_listener := { figure_listener with connection_attr := some client_connection }
    client_connection := client_connection }

/-- Python attribute lookup of `execute` on a `DeephavenFigure`: the class
defines no such method (only `DeephavenFigureListener` does), so the lookup
fails. -/
def DHFigure.lookup_execute (_f : DHFigure) :
    Option (JValue → List Nat → JValue × List Nat) :=
  none

/-- Embeds `DeephavenFigureConnection.on_data(payload, references)`: evaluates
`self.figure_listener.execute(payload, references)`; since the held object
is a `DeephavenFigure`, the attribute lookup raises `AttributeError` before
anything is forwarded to the client connection. -/
def DHConnection.on_data (c : DHConnection) (payload : JValue) (references : List Nat) :
    Except Err (JValue × List Nat) :=
  match c.figure_listener.lookup_execute with
  | none => Except.error (Err.attributeError "DeephavenFigure object has no attribute execute")
  | some f => Except.ok (f payload references)

theorem findRef_append_some (o : Nat) (r : Reference) (xs ys : List (Nat × Reference))
    (h : findRef o xs = some r) : findRef o (xs ++ ys) = some r := by
  induction xs with
  | nil => simp [findRef] at h
  | cons p xs ih =>
    obtain ⟨k, v⟩ := p
    by_cases hk : o = k
    · subst hk
      simpa [findRef] using h
    · simp [findRef, hk] at h ⊢
      exact ih h

theorem findRef_append_none (o : Nat) (xs ys : List (Nat × Reference))
    (h : findRef o xs = none) : findRef o (xs ++ ys) = findRef o ys := by
  induction xs with
  | nil => simp [findRef]
  | cons p xs ih =>
    obtain ⟨k, v⟩ := p
    by_cases hk : o = k
    · simp [findRef, hk] at h
    · simp [findRef, hk] at h ⊢
      exact ih h

theorem findRef_cons_none (o k : Nat) (v : Reference) (xs : List (Nat × Reference))
    (h : findRef o ((k, v) :: xs) = none) : o ≠ k ∧ findRef o xs = none := by
  by_cases hk : o = k
  · simp [findRef, hk] at h
  · simp [findRef, hk] at h
    exact ⟨hk, h⟩

theorem reference_found (e : Exporter) (o : Nat) (r : Reference)
    (h : findRef o e.references = some r) : e.reference o = (r, e) := by
  simp [Exporter.reference, h]

theorem reference_self_found (e : Exporter) (o : Nat) :
    findRef o ((e.reference o).2).references = some (e.reference o).1 := by
  cases h : findRef o e.references with
  | some r => simp [Exporter.reference, h]
  | none =>
    simp only [Exporter.reference, h]
    rw [findRef_append_none o e.references _ h]
    simp [findRef]

theorem reference_preserves_found (e : Exporter) (o o' : Nat) (r : Reference)
    (h : findRef o e.references = some r) :
    findRef o ((e.reference o').2).references = some r := by
  cases h' : findRef o' e.references with
  | some r' => simpa [Exporter.reference, h'] using h
  | none =>
    simp only [Exporter.reference, h']
    exact findRef_append_some o r e.references _ h

theorem runRefs_preserves_found (os : List Nat) (e : Exporter) (o : Nat) (r : Reference)
    (h : findRef o e.references = some r) :
    findRef o (runRefs e os).references = some r := by
  induction os generalizing e with
  | nil => simpa [runRefs] using h
  | cons x xs ih => simpa [runRefs] using ih _ (reference_preserves_found e o x r h)

/-- The exporter dict is well formed from base index `n` on: each entry's
stored index is its position, each entry's stored object is its key, and no
key is repeated further down. -/
def wfFrom : Nat → List (Nat × Reference) → Prop
  | _, [] => True
  | n, (k, r) :: rest => r.index = n ∧ r.obj = k ∧ findRef k rest = none ∧ wfFrom (n + 1) rest

theorem wfFrom_append (n : Nat) (xs : List (Nat × Reference)) (o : Nat)
    (hwf : wfFrom n xs) (hnone : findRef o xs = none) :
    wfFrom n (xs ++ [(o, ⟨n + xs.length, o⟩)]) := by
  induction xs generalizing n with
  | nil => simp [wfFrom, findRef]
  | cons p xs ih =>
    obtain ⟨k, v⟩ := p
    obtain ⟨h1, h2, h3, h4⟩ := hwf
    obtain ⟨hne, hnone'⟩ := findRef_cons_none o k v xs hnone
    refine ⟨h1, h2, ?_, ?_⟩
    · show findRef k (xs ++ [(o, ⟨n + ((k, v) :: xs).length, o⟩)]) = none
      rw [findRef_append_none k xs _ h3]
      simp [findRef, Ne.symm hne]
    · have hrec := ih (n + 1) h4 hnone'
      have harith : n + ((k, v) :: xs).length = n + 1 + xs.length := by
        simp only [List.length_cons]
        omega
      show wfFrom (n + 1) (xs ++ [(o, ⟨n + ((k, v) :: xs).length, o⟩)])
      rw [harith]
      exact hrec

theorem wfFrom_get (xs : List (Nat × Reference)) (n i : Nat)
    (hwf : wfFrom n xs) (h : i < xs.length) :
    ∃ p : Nat × Reference, xs[i]? = some p ∧ p.2.index = n + i ∧ p.2.obj = p.1 := by
  induction xs generalizing n i with
  | nil => simp at h
  | cons q xs ih =>
    obtain ⟨k, v⟩ := q
    obtain ⟨h1, h2, _, h4⟩ := hwf
    cases i with
    | zero => exact ⟨(k, v), by simp, by simpa using h1, h2⟩
    | succ j =>
      obtain ⟨p, hp1, hp2, hp3⟩ := ih (n + 1) j h4 (by simpa using h)
      refine ⟨p, by simpa using hp1, ?_, hp3⟩
      rw [hp2]
      omega

theorem findRef_none_not_mem (o : Nat) (xs : List (Nat × Reference))
    (h : findRef o xs = none) : o ∉ xs.map Prod.fst := by
  induction xs with
  | nil => simp
  | cons p xs ih =>
    obtain ⟨k, v⟩ := p
    obtain ⟨hne, h'⟩ := findRef_cons_none o k v xs h
    simp [hne, ih h']

theorem wfFrom_keys_nodup (xs : List (Nat × Reference)) (n : Nat)
    (hwf : wfFrom n xs) : (xs.map Prod.fst).Nodup := by
  induction xs generalizing n with
  | nil => simp
  | cons p xs ih =>
    obtain ⟨k, v⟩ := p
    obtain ⟨_, _, h3, h4⟩ := hwf
    simp only [List.map_cons, List.nodup_cons]
    exact ⟨findRef_none_not_mem k xs h3, ih (n + 1) h4⟩

theorem reference_wfFrom (e : Exporter) (o : Nat)
    (h : wfFrom 0 e.references) : wfFrom 0 ((e.reference o).2).references := by
  cases h' : findRef o e.references with
  | some r => simpa [Exporter.reference, h'] using h
  | none =>
    have happ := wfFrom_append 0 e.references o h h'
    simpa [Exporter.reference, h'] using happ

theorem runRefs_wfFrom (os : List Nat) (e : Exporter)
    (h : wfFrom 0 e.references) : wfFrom 0 (runRefs e os).references := by
  induction os generalizing e with
  | nil => simpa [runRefs] using h
  | cons x xs ih => simpa [runRefs] using ih _ (reference_wfFrom e x h)

/-- C2: for every sequence of `reference` calls on one Exporter, a given
object always yields the same index (stable across any further calls);
distinct objects occupy distinct dict entries (keys are nodup) whose stored
index is exactly their 0-based allocation position (monotone, no gaps or
reuse); and `reference_list` is positionally aligned: the object at position
`i` is the object whose `Reference` carries index `i`. -/
theorem reference_table_correct (os ys : List Nat) (o i : Nat) :
    ((runRefs ((runRefs Exporter.empty os).reference o).2 ys).reference o).1
        = ((runRefs Exporter.empty os).reference o).1
  ∧ ((runRefs Exporter.empty os).references.map Prod.fst).Nodup
  ∧ (i < (runRefs Exporter.empty os).references.length →
      ∃ p : Nat × Reference,
        (runRefs Exporter.empty os).references[i]? = some p
        ∧ p.2.index = i ∧ p.2.obj = p.1
        ∧ (runRefs Exporter.empty os).reference_list[i]? = some p.1) := by
  have hempty : wfFrom 0 Exporter.empty.references := by
    simp [Exporter.empty, wfFrom]
  have hwf : wfFrom 0 (runRefs Exporter.empty os).references :=
    runRefs_wfFrom os Exporter.empty hempty
  refine ⟨?_, wfFrom_keys_nodup _ 0 hwf, ?_⟩
  · have h1 := reference_self_found (runRefs Exporter.empty os) o
    have h2 := runRefs_preserves_found ys _ o _ h1
    rw [reference_found _ o _ h2]
  · intro hi
    obtain ⟨p, hp1, hp2, hp3⟩ := wfFrom_get _ 0 i hwf hi
    refine ⟨p, hp1, by simpa using hp2, hp3, ?_⟩
    simp [Exporter.reference_list, List.getElem?_map, hp1]

theorem reference_table_correct_witness :
    ∃ p : Nat × Reference,
      (runRefs Exporter.empty [4, 9, 4]).references[1]? = some p
      ∧ p.2.index = 1 ∧ p.2.obj = p.1
      ∧ (runRefs Exporter.empty [4, 9, 4]).reference_list[1]? = some p.1 :=
  (reference_table_correct [4, 9, 4] [] 4 1).2.2 (by decide)

/-- A one-column data mapping against table `t`, used as a concrete input. -/
def sampleMapping (t : Nat) : DataMapping :=
  { column_to_property := [("x", "x")], table := t, offset := 0 }

/-- A concrete figure payload whose single mapping references table `t`. -/
def sampleFig (t : Nat) : FigData :=
  { fig := some (JValue.jstr "plotlyfig")
    call := none
    call_args := none
    trace_generator := none
    has_template := false
    has_color := false
    _data_mappings := [sampleMapping t]
    has_subplots := false }

/-- A concrete chart-construction collaborator: reading the live data source
at world-time `w` yields a figure referencing the (fresh) table `10 + w`. -/
def sampleFunc : ArgsRec → Nat → Except Nat (FigData × Unit) :=
  fun _ w => Except.ok (sampleFig (10 + w), ())

def sampleArgs : ArgsRec := { args_table := Table.plain 0, rest := 0 }

/-- A freshly initialized listener with a peer connection attached (the
state the spec's push step presumes). -/
def sampleListener : DHListener :=
  { DHListener.init (Table.plain 0) sampleFunc sampleArgs 0 0 with connection := some 0 }

/-- A figure with an initialized listener (no peer connection). -/
def sampleFigure : DHFigure :=
  { DHFigure.init (some (JValue.jstr "plotlyfig")) none none none false false none false with
      listener := some (DHListener.init (Table.plain 0) sampleFunc sampleArgs 0 0) }

/-- C8: `execute` is an identity passthrough: for every payload and
reference list it returns exactly the input pair, raises no error (it is a
total function), leaves the listener state unmodified, and takes no lock. -/
theorem execute_identity_passthrough (l : DHListener) (payload : JValue)
    (references : List Nat) :
    DHListener.execute l payload references = ((payload, references), l, []) := rfl

/-- C10: constructing a `DeephavenFigure` with every argument at its default
succeeds: `has_arg` is total over an absent or empty argument record and
returns `False`, so `has_template` and `has_color` are `False`; the stored
mapping list is empty, so `copy_mappings` and `get_json_links` return empty
lists (and the exporter is untouched). -/
theorem default_figure_safe (check : String ⊕ (List (String × PyVal) → Bool))
    (k : Int) (e : Exporter) :
    has_arg none check = false
  ∧ has_arg (some []) check = false
  ∧ (DHFigure.init none none none none false false none false).fd.has_template = false
  ∧ (DHFigure.init none none none none false false none false).fd.has_color = false
  ∧ (DHFigure.init none none none none false false none false).fd._data_mappings = []
  ∧ FigData.copy_mappings (DHFigure.init none none none none false false none false).fd k = []
  ∧ FigData.get_json_links (DHFigure.init none none none none false false none false).fd e
      = ([], e) :=
  ⟨rfl, rfl, rfl, rfl, rfl, rfl, rfl⟩

/-- C7: with identical `call_args`, explicitly passing `has_template=False`
is the same call as omitting it (the Python default is `False`) and the flag
is derived solely from the args: it equals `has_arg(call_args, "template")`;
moreover the derived `has_template` is true iff the args contain a non-empty
template option, and the derived `has_color` is true iff the line or the
marker discrete-color-sequence variant is present with a non-empty value
(the spec-side predicates follow the claim's wording). -/
theorem flag_derivation_correct (ca : Option (List (String × PyVal)))
    (fig : Option JValue) (call : Option Nat) (dm : Option (List DataMapping))
    (tg : Option Nat) (hs : Bool) :
    ((DHFigure.init fig call ca dm false false tg hs).fd.has_template
        = has_arg ca (Sum.inl "template"))
  ∧ ((DHFigure.init fig call ca dm false false tg hs).fd.has_template = true
        ↔ spec_has_nonempty_template ca = true)
  ∧ ((DHFigure.init fig call ca dm false false tg hs).fd.has_color = true
        ↔ spec_has_nonempty_color_seq ca = true) := by
  refine ⟨rfl, ?_, ?_⟩
  · cases ca with
    | none => simp [DHFigure.init, has_arg, spec_has_nonempty_template]
    | some d =>
      cases d with
      | nil => simp [DHFigure.init, has_arg, spec_has_nonempty_template, findVal]
      | cons p rest =>
        simp [DHFigure.init, has_arg, spec_has_nonempty_template]
  · cases ca with
    | none => simp [DHFigure.init, has_arg, spec_has_nonempty_color_seq]
    | some d =>
      cases d with
      | nil =>
        simp [DHFigure.init, has_arg, spec_has_nonempty_color_seq, has_color_args, findVal]
      | cons p rest =>
        simp [DHFigure.init, has_arg, spec_has_nonempty_color_seq, has_color_args]

/-- C4: the adapter wiring is broken in the code. Constructing
`DeephavenFigureConnection` over a figure with an initialized listener sets
the dynamic `connection` attribute on the figure object itself, while the
bound listener's `connection` stays `None` (so the listener can never push
`NEW_FIGURE` messages), and an inbound message raises `AttributeError`
(`DeephavenFigure` has no `execute`) instead of being forwarded to
`listener.execute` and back to the peer. -/
theorem connection_miswired :
    (DHConnection.init sampleFigure 5).figure_listener.connection_attr = some 5
  ∧ ((DHConnection.init sampleFigure 5).figure_listener.listener.map
        (fun l => l.connection)) = some none
  ∧ DHConnection.on_data (DHConnection.init sampleFigure 5) (JValue.jstr "msg") []
      = Except.error (Err.attributeError "DeephavenFigure object has no attribute execute") :=
  ⟨rfl, rfl, rfl⟩

theorem reference_refs_extend (e : Exporter) (o : Nat) :
    ∃ t, ((e.reference o).2).references = e.references ++ t := by
  cases h : findRef o e.references with
  | some r => exact ⟨[], by simp [Exporter.reference, h]⟩
  | none => exact ⟨[(o, ⟨e.references.length, o⟩)], by simp [Exporter.reference, h]⟩

theorem get_links_refs_extend (m : DataMapping) (e : Exporter) :
    ∃ t, ((m.get_links e).2).references = e.references ++ t := by
  obtain ⟨t, ht⟩ := reference_refs_extend e m.table
  exact ⟨t, ht⟩

theorem linksFold_refs_extend (ms : List DataMapping) (acc : List JValue) (e : Exporter) :
    ∃ t, ((linksFold ms acc e).2).references = e.references ++ t := by
  induction ms generalizing acc e with
  | nil => exact ⟨[], by simp [linksFold]⟩
  | cons m ms ih =>
    cases hg : m.get_links e with
    | mk ls e' =>
      obtain ⟨t1, h1⟩ := get_links_refs_extend m e
      rw [hg] at h1
      obtain ⟨t2, h2⟩ := ih (acc ++ ls) e'
      refine ⟨t1 ++ t2, ?_⟩
      have hstep : linksFold (m :: ms) acc e = linksFold ms (acc ++ ls) e' := by
        simp [linksFold, hg]
      rw [hstep, h2, h1, List.append_assoc]

theorem to_json_ok_snd (f : FigData) (e : Exporter) (d : JValue) (e' : Exporter)
    (h : FigData.to_json f e = Except.ok (d, e')) :
    e' = (f.get_json_links e).2 := by
  cases hf : f.fig with
  | none => simp [FigData.to_json, hf] at h
  | some pj =>
    cases hl : f.get_json_links e with
    | mk ms e2 =>
      simp [FigData.to_json, hf, hl] at h
      exact h.2.symm

theorem to_json_refs_extend (f : FigData) (e : Exporter) (d : JValue) (e' : Exporter)
    (h : FigData.to_json f e = Except.ok (d, e')) :
    ∃ t, e'.references = e.references ++ t := by
  rw [to_json_ok_snd f e d e' h]
  exact linksFold_refs_extend f._data_mappings [] e

theorem to_json_error_shape (f : FigData) (e : Exporter) (er : Err)
    (h : FigData.to_json f e = Except.error er) :
    ∃ m, er = Err.attributeError m := by
  cases hf : f.fig with
  | none =>
    simp [FigData.to_json, hf] at h
    exact ⟨_, h.symm⟩
  | some pj =>
    cases hl : f.get_json_links e with
    | mk ms e2 => simp [FigData.to_json, hf, hl] at h

theorem listener_error_shape (l : DHListener) (w u : Nat) (ir : Bool) (e : Err)
    (h : (DHListener.on_update l w u ir).1 = Except.error e) :
    (∃ c, e = Err.collab c) ∨ (∃ m, e = Err.attributeError m) := by
  unfold DHListener.on_update at h
  cases hfn : l.orig_func (args_copy l.orig_args) w with
  | error c =>
    rw [hfn] at h
    simp at h
    exact Or.inl ⟨c, h.symm⟩
  | ok pr =>
    obtain ⟨nf, u2⟩ := pr
    rw [hfn] at h
    dsimp only at h
    cases hj : FigData.to_json nf l.exporter with
    | error e1 =>
      rw [hj] at h
      simp at h
      obtain ⟨m, hm⟩ := to_json_error_shape nf l.exporter e1 hj
      exact Or.inr ⟨m, by rw [← h, hm]⟩
    | ok pr2 =>
      obtain ⟨d1, ex1⟩ := pr2
      rw [hj] at h
      dsimp only at h
      cases hc : l.connection with
      | none =>
        rw [hc] at h
        simp at h
      | some cc =>
        rw [hc] at h
        dsimp only at h
        cases hj2 : FigData.to_json nf ex1 with
        | error e2 =>
          rw [hj2] at h
          simp at h
          obtain ⟨m, hm⟩ := to_json_error_shape nf ex1 e2 hj2
          exact Or.inr ⟨m, by rw [← h, hm]⟩
        | ok pr3 =>
          obtain ⟨d2, ex2⟩ := pr3
          rw [hj2] at h
          simp at h

theorem listener_keeps_deephaven_figure (l : DHListener) (w u : Nat) (ir : Bool) :
    ((DHListener.on_update l w u ir).2.1).deephaven_figure = l.deephaven_figure := by
  unfold DHListener.on_update
  cases hfn : l.orig_func (args_copy l.orig_args) w with
  | error c => simp
  | ok pr =>
    obtain ⟨nf, u2⟩ := pr
    cases hj : FigData.to_json nf l.exporter with
    | error e1 => simp [hj]
    | ok pr2 =>
      obtain ⟨d1, ex1⟩ := pr2
      cases hc : l.connection with
      | none => simp [hj]
      | some cc =>
        cases hj2 : FigData.to_json nf ex1 with
        | error e2 => simp [hj, hj2]
        | ok pr3 =>
          obtain ⟨d2, ex2⟩ := pr3
          simp [hj, hj2]

/-- C5: if the construction collaborator raises during a recompute, the
exception propagates out of `DeephavenFigure.on_update` (wrapped in no
handler by listener or figure), no push is sent, and every published field
of the figure keeps its pre-notification value (the whole `fd` record is
unchanged, so there is no partial replacement). -/
theorem construction_failure_propagates (f : DHFigure) (l : DHListener)
    (w u : Nat) (ir : Bool) (c : Nat)
    (hl : f.listener = some l)
    (hf : l.orig_func (args_copy l.orig_args) w = Except.error c) :
    (DHFigure.on_update f w u ir).1 = Except.error (Err.collab c)
  ∧ (DHFigure.on_update f w u ir).2.1.fd = f.fd
  ∧ (DHFigure.on_update f w u ir).2.2.1 = [] := by
  have hrun : DHListener.on_update l w u ir
      = (Except.error (Err.collab c),
         { l with partitions := l.table.partition_count w }, []) := by
    unfold DHListener.on_update
    rw [hf]
  unfold DHFigure.on_update
  rw [hl]
  dsimp only
  rw [hrun]
  exact ⟨rfl, rfl, rfl⟩

/-- A collaborator that always raises (with exception code 7). -/
def failFunc : ArgsRec → Nat → Except Nat (FigData × Unit) := fun _ _ => Except.error 7

def failListener : DHListener := DHListener.init (Table.plain 0) failFunc sampleArgs 0 0

def failFigure : DHFigure :=
  { DHFigure.init (some (JValue.jstr "plotlyfig")) none none none false false none false with
      listener := some failListener }

theorem construction_failure_witness :
    (DHFigure.on_update failFigure 0 0 false).1 = Except.error (Err.collab 7)
  ∧ (DHFigure.on_update failFigure 0 0 false).2.1.fd = failFigure.fd
  ∧ (DHFigure.on_update failFigure 0 0 false).2.2.1 = [] :=
  construction_failure_propagates failFigure failListener 0 0 false 7 rfl rfl

/-- C9: invoking `on_update` on a figure whose listener is not attached
raises `ValueError("Listener not initialized")` immediately — the figure is
returned unchanged, nothing is pushed, and no lock is taken; attaching a
listener stores it; and once a listener is attached this error can no
longer arise (any error is a collaborator or attribute error, which are
distinct constructors from the `ValueError`). -/
theorem uninitialized_listener_fails_fast (f : DHFigure) (w u : Nat) (ir : Bool)
    (tb : Table) (fn : ArgsRec → Nat → Except Nat (FigData × Unit))
    (a : ArgsRec) (ec w0 : Nat) :
    (f.listener = none →
        DHFigure.on_update f w u ir
          = (Except.error (Err.valueError "Listener not initialized"), f, [], []))
  ∧ (DHFigure.attach_listener f tb fn a ec w0).listener
        = some (DHListener.init tb fn a ec w0)
  ∧ (∀ l, f.listener = some l →
      ∀ e, (DHFigure.on_update f w u ir).1 = Except.error e →
        e ≠ Err.valueError "Listener not initialized") := by
  refine ⟨?_, rfl, ?_⟩
  · intro h
    unfold DHFigure.on_update
    rw [h]
  · intro l hl e herr
    unfold DHFigure.on_update at herr
    rw [hl] at herr
    dsimp only at herr
    cases hr : DHListener.on_update l w u ir with
    | mk r rest =>
      obtain ⟨l2, pushes⟩ := rest
      rw [hr] at herr
      cases r with
      | error e0 =>
        have he : e0 = e := by simpa using herr
        subst he
        rcases listener_error_shape l w u ir e0 (by rw [hr]) with ⟨c, hc⟩ | ⟨m, hm⟩
        · subst hc
          intro hcontra
          exact Err.noConfusion hcontra
        · subst hm
          intro hcontra
          exact Err.noConfusion hcontra
      | ok nf => simp at herr

def plainFigure : DHFigure := DHFigure.init none none none none false false none false

theorem uninitialized_listener_witness :
    DHFigure.on_update plainFigure 0 0 false
      = (Except.error (Err.valueError "Listener not initialized"), plainFigure, [], []) :=
  (uninitialized_listener_fails_fast plainFigure 0 0 false (Table.plain 0)
    sampleFunc sampleArgs 0 0).1 rfl

/-- C3 counterexample: a concrete successful notification on a freshly
initialized, connection-attached listener. The listener returns the new
payload but its stored `deephaven_figure` slot still holds `None`; the
claimed replacement of the listener's stored current payload does not
happen. -/
theorem listener_payload_not_stored_counterexample :
    (DHListener.on_update sampleListener 1 0 false).1 = Except.ok (sampleFig 11)
  ∧ (DHListener.on_update sampleListener 1 0 false).2.1.deephaven_figure = none
  ∧ (DHListener.on_update sampleListener 1 0 false).2.1.deephaven_figure
      ≠ some (sampleFig 11) := by
  refine ⟨rfl, rfl, ?_⟩
  intro h
  have h2 : (DHListener.on_update sampleListener 1 0 false).2.1.deephaven_figure = none := rfl
  rw [h2] at h
  exact Option.noConfusion h

/-- C3 amended: on a successful notification the listener stores nothing
(`deephaven_figure` is unchanged) and holds no lock; it is the owning
figure that replaces its published fields, wholesale, with the new
payload's fields, and that replacement happens inside the figure's own
`fig_lock` acquire/release pair — while `execute` touches no state and
takes no lock at all. -/
theorem payload_replacement_in_figure (f : DHFigure) (l : DHListener)
    (w u : Nat) (ir : Bool) (nf : FigData)
    (hl : f.listener = some l)
    (hok : (DHListener.on_update l w u ir).1 = Except.ok nf) :
    (DHFigure.on_update f w u ir).2.1.fd = nf
  ∧ (DHFigure.on_update f w u ir).2.2.2
      = [LockEvt.acquire_fig_lock, LockEvt.release_fig_lock]
  ∧ ((DHFigure.on_update f w u ir).2.1.listener.map (fun l2 => l2.deephaven_figure))
      = some l.deephaven_figure
  ∧ (∀ p r, DHListener.execute l p r = ((p, r), l, [])) := by
  have hkeep := listener_keeps_deephaven_figure l w u ir
  unfold DHFigure.on_update
  rw [hl]
  dsimp only
  cases hr : DHListener.on_update l w u ir with
  | mk r rest =>
    obtain ⟨l2, pushes⟩ := rest
    rw [hr] at hok hkeep
    have hok2 : r = Except.ok nf := by simpa using hok
    subst hok2
    have hkeep2 : l2.deephaven_figure = l.deephaven_figure := by simpa using hkeep
    exact ⟨rfl, rfl, by simp [hkeep2], fun p r2 => rfl⟩

def connectedFigure : DHFigure :=
  { DHFigure.init (some (JValue.jstr "plotlyfig")) none none none false false none false with
      listener := some sampleListener }

theorem payload_replacement_witness :
    (DHFigure.on_update connectedFigure 1 0 false).2.1.fd = sampleFig 11
  ∧ (DHFigure.on_update connectedFigure 1 0 false).2.2.2
      = [LockEvt.acquire_fig_lock, LockEvt.release_fig_lock]
  ∧ ((DHFigure.on_update connectedFigure 1 0 false).2.1.listener.map
        (fun l2 => l2.deephaven_figure)) = some sampleListener.deephaven_figure
  ∧ (∀ p r, DHListener.execute sampleListener p r = ((p, r), sampleListener, [])) :=
  payload_replacement_in_figure connectedFigure sampleListener 1 0 false (sampleFig 11)
    rfl rfl

/-- C6: the serialized chart payload is a document with exactly the two
top-level sections `plotly` (the renderer figure, passed through) and
`deephaven` (the flattened links of all data mappings plus the
`is_user_set_template` and `is_user_set_color` flags); and when a
notification with an attached peer connection succeeds, the single push is
the envelope `type: NEW_FIGURE, figure: document` delivered together with
the exporter's `reference_list()`. -/
theorem wire_format_two_sections_and_envelope
    (f : FigData) (pj : JValue) (e : Exporter)
    (l : DHListener) (w u : Nat) (ir : Bool) (nf : FigData) (c : Nat)
    (d1 d2 : JValue) (e1 e2 : Exporter) :
    (f.fig = some pj →
      FigData.to_json f e
        = Except.ok
            (JValue.jobj
              [("plotly", pj),
               ("deephaven", JValue.jobj
                 [("mappings", JValue.jarr (f.get_json_links e).1),
                  ("is_user_set_template", JValue.jbool f.has_template),
                  ("is_user_set_color", JValue.jbool f.has_color)])],
             (f.get_json_links e).2))
  ∧ (l.connection = some c →
     l.orig_func (args_copy l.orig_args) w = Except.ok (nf, ()) →
     FigData.to_json nf l.exporter = Except.ok (d1, e1) →
     FigData.to_json nf e1 = Except.ok (d2, e2) →
       (DHListener.on_update l w u ir).2.2
         = [(JValue.jobj [("type", JValue.jstr "NEW_FIGURE"), ("figure", d2)],
             Exporter.reference_list e2)]) := by
  constructor
  · intro hf
    cases hl : f.get_json_links e with
    | mk ms e' => simp [FigData.to_json, hf, hl]
  · intro hc hok h1 h2
    unfold DHListener.on_update
    rw [hok]
    dsimp only
    rw [h1]
    dsimp only
    rw [hc]
    dsimp only
    rw [h2]

/-- The link record produced for `sampleMapping 11` at reference index 0. -/
def sampleLink11 : JValue :=
  JValue.jobj
    [("table", JValue.jnum 0),
     ("data_columns", JValue.jobj [("x", JValue.jstr "x")]),
     ("offset", JValue.jnum 0)]

/-- The wire document serialized from `sampleFig 11`. -/
def sampleDoc11 : JValue :=
  JValue.jobj
    [("plotly", JValue.jstr "plotlyfig"),
     ("deephaven", JValue.jobj
       [("mappings", JValue.jarr [sampleLink11]),
        ("is_user_set_template", JValue.jbool false),
        ("is_user_set_color", JValue.jbool false)])]

/-- The exporter state after serializing `sampleFig 11` from empty. -/
def sampleEx11 : Exporter := ⟨[(11, ⟨0, 11⟩)]⟩

/-- The push emitted by `sampleListener` for the notification at world 1. -/
def samplePush : JValue × List Nat :=
  (JValue.jobj [("type", JValue.jstr "NEW_FIGURE"), ("figure", sampleDoc11)], [11])

theorem wire_format_witness :
    FigData.to_json (sampleFig 11) Exporter.empty
      = Except.ok
          (JValue.jobj
            [("plotly", JValue.jstr "plotlyfig"),
             ("deephaven", JValue.jobj
               [("mappings", JValue.jarr ((sampleFig 11).get_json_links Exporter.empty).1),
                ("is_user_set_template", JValue.jbool (sampleFig 11).has_template),
                ("is_user_set_color", JValue.jbool (sampleFig 11).has_color)])],
           ((sampleFig 11).get_json_links Exporter.empty).2)
  ∧ (DHListener.on_update sampleListener 1 0 false).2.2
      = [(JValue.jobj [("type", JValue.jstr "NEW_FIGURE"), ("figure", sampleDoc11)],
          Exporter.reference_list sampleEx11)] :=
  ⟨(wire_format_two_sections_and_envelope (sampleFig 11) (JValue.jstr "plotlyfig")
      Exporter.empty sampleListener 1 0 false (sampleFig 11) 0
      sampleDoc11 sampleDoc11 sampleEx11 sampleEx11).1 rfl,
   (wire_format_two_sections_and_envelope (sampleFig 11) (JValue.jstr "plotlyfig")
      Exporter.empty sampleListener 1 0 false (sampleFig 11) 0
      sampleDoc11 sampleDoc11 sampleEx11 sampleEx11).2 rfl rfl rfl rfl⟩

/-- C1 counterexample: two consecutive notifications on a freshly
initialized, connection-attached listener, where the live data source makes
the collaborator return a figure referencing table 11 at the first update
and table 12 at the second. The second update's push carries the reference
list `[11, 12]` — it still contains table 11, an entry accumulated from the
first update — whereas serializing the second figure with a fresh Exporter
references only `[12]`. The Exporter is therefore not created fresh per
update, and the pushed reference list is not limited to the objects
referenced during that one update's serialization. -/
theorem exporter_reuse_counterexample :
    (DHListener.on_update (DHListener.on_update sampleListener 1 0 false).2.1
        2 0 false).2.2.map Prod.snd = [[11, 12]]
  ∧ ((sampleFig 12).get_json_links Exporter.empty).2.reference_list = [12]
  ∧ (DHListener.on_update (DHListener.on_update sampleListener 1 0 false).2.1
        2 0 false).2.2.map Prod.snd
      ≠ [((sampleFig 12).get_json_links Exporter.empty).2.reference_list] :=
  ⟨rfl, rfl, by decide⟩

/-- C1 amended: the Exporter is created once, at listener construction
(empty), and reused across all updates and serialization passes: an update
only ever appends to its reference dict, and every push delivers the
accumulated `reference_list()` of the post-update exporter (all objects
referenced by any serialization so far, in first-seen order) rather than a
per-update fresh reference list. -/
theorem exporter_accumulates_across_updates (l : DHListener) (w u : Nat) (ir : Bool)
    (tb : Table) (fn : ArgsRec → Nat → Except Nat (FigData × Unit))
    (a : ArgsRec) (ec w0 : Nat) :
    (DHListener.init tb fn a ec w0).exporter = Exporter.empty
  ∧ (∃ t, ((DHListener.on_update l w u ir).2.1).exporter.references
        = l.exporter.references ++ t)
  ∧ (∀ p, p ∈ (DHListener.on_update l w u ir).2.2 →
      p.2 = ((DHListener.on_update l w u ir).2.1).exporter.reference_list) := by
  refine ⟨rfl, ?_, ?_⟩
  · unfold DHListener.on_update
    cases hfn : l.orig_func (args_copy l.orig_args) w with
    | error c => exact ⟨[], by simp⟩
    | ok pr =>
      obtain ⟨nf, u2⟩ := pr
      cases hj : FigData.to_json nf l.exporter with
      | error e1 => exact ⟨[], by simp [hj]⟩
      | ok pr2 =>
        obtain ⟨d1, ex1⟩ := pr2
        obtain ⟨t1, ht1⟩ := to_json_refs_extend nf l.exporter d1 ex1 hj
        cases hc : l.connection with
        | none => exact ⟨t1, by simp [hj, ht1]⟩
        | some cc =>
          cases hj2 : FigData.to_json nf ex1 with
          | error e2 => exact ⟨t1, by simp [hj, hj2, ht1]⟩
          | ok pr3 =>
            obtain ⟨d2, ex2⟩ := pr3
            obtain ⟨t2, ht2⟩ := to_json_refs_extend nf ex1 d2 ex2 hj2
            exact ⟨t1 ++ t2, by simp [hj, hj2, ht2, ht1, List.append_assoc]⟩
  · intro p hp
    unfold DHListener.on_update at hp ⊢
    cases hfn : l.orig_func (args_copy l.orig_args) w with
    | error c => simp [hfn] at hp
    | ok pr =>
      obtain ⟨nf, u2⟩ := pr
      cases hj : FigData.to_json nf l.exporter with
      | error e1 => simp [hfn, hj] at hp
      | ok pr2 =>
        obtain ⟨d1, ex1⟩ := pr2
        cases hc : l.connection with
        | none => simp [hfn, hj, hc] at hp
        | some cc =>
          cases hj2 : FigData.to_json nf ex1 with
          | error e2 => simp [hfn, hj, hc, hj2] at hp
          | ok pr3 =>
            obtain ⟨d2, ex2⟩ := pr3
            simp only [hfn, hj, hc, hj2] at hp ⊢
            simp at hp
            subst hp
            simp

theorem exporter_accumulates_witness :
    samplePush.2
      = ((DHListener.on_update sampleListener 1 0 false).2.1).exporter.reference_list :=
  (exporter_accumulates_across_updates sampleListener 1 0 false (Table.plain 0)
      sampleFunc sampleArgs 0 0).2.2 samplePush (by
    have hpush : (DHListener.on_update sampleListener 1 0 false).2.2 = [samplePush] := rfl
    rw [hpush]
    exact List.mem_singleton.mpr rfl)
